import Mathlib

/-!
Verification of the shpConverter repository: shallow embedding of the
color-resolution fallback chains (`src/shp2dxf.py` `_parse_rgb_from_record`,
`src/dxf2shp.py` `entity_rgb`), the geometry routing and ring-closing logic
(`src/dxf2shp.py` `convert_one_dxf` / `close_if_needed`, `src/shp2dxf.py`
`convert_shp_to_dxf` / `_split_parts`), and the CRS catalog and selection
grammar (`src/makePrj4shp.py` `build_options` / `parse_choice` /
`write_sidecars`), together with theorems settling the specification claims.

Python strings are modelled as `List Char`; Python `int` values as `Int`;
fallible operations (those the source wraps in try/except, or whose failure
would escape) as `Option`.  The external indexed-color table
(`ezdxf.colors.aci2rgb`) is an abstract parameter `Int → Option Rgb`
(`none` models the exception it raises on out-of-range indices).
-/

namespace ShpConv

/-! ### Models of Python string/int builtins -/

/-- Model of the (ASCII) whitespace set recognised by Python `str.strip`. -/
def pyIsSpace (c : Char) : Bool :=
  c == ' ' || c == '\t' || c == '\n' || c == '\r' || c == '\x0b' || c == '\x0c'

/-- Model of Python `str.upper` on one ASCII character. -/
def pyToUpper (c : Char) : Char :=
  if 'a' ≤ c ∧ c ≤ 'z' then Char.ofNat (c.toNat - 32) else c

/-- Model of Python `str.lower` on one ASCII character. -/
def pyToLower (c : Char) : Char :=
  if 'A' ≤ c ∧ c ≤ 'Z' then Char.ofNat (c.toNat + 32) else c

/-- Decimal digit test, as used by Python `str.isdigit` on ASCII input. -/
def isDigitChar (c : Char) : Bool := '0' ≤ c && c ≤ '9'

/-- Hex digit test matching the source's literal set `0123456789aAbBcCdDeEfF`. -/
def isHexDigitChar (c : Char) : Bool :=
  isDigitChar c || ('a' ≤ c && c ≤ 'f') || ('A' ≤ c && c ≤ 'F')

/-- Numeric value of one hex digit (model of `int(-, 16)` per character). -/
def hexDigitVal (c : Char) : Nat :=
  if isDigitChar c then c.toNat - 48
  else if 'a' ≤ c ∧ c ≤ 'f' then c.toNat - 87
  else c.toNat - 55

/-- The character for a single decimal digit. -/
def digitToChar : Nat → Char
  | 0 => '0' | 1 => '1' | 2 => '2' | 3 => '3' | 4 => '4'
  | 5 => '5' | 6 => '6' | 7 => '7' | 8 => '8' | 9 => '9'
  | _ => '*'

/-- Fuel-driven helper for `decChars` (structural recursion so that the
kernel can evaluate it). -/
def decCharsAux : Nat → Nat → List Char
  | 0, _ => []
  | fuel + 1, n =>
    if n < 10 then [digitToChar n]
    else decCharsAux fuel (n / 10) ++ [digitToChar (n % 10)]

/-- Decimal digit string of a natural number (model of Python `str` on a
nonnegative `int`, as interpolated by f-strings). -/
def decChars (n : Nat) : List Char := decCharsAux (n + 1) n

theorem decCharsAux_irrel :
    ∀ (n f1 f2 : Nat), n < f1 → n < f2 → decCharsAux f1 n = decCharsAux f2 n := by
  intro n
  induction n using Nat.strong_induction_on with
  | _ n ih =>
    intro f1 f2 h1 h2
    match f1, f2 with
    | fa + 1, fb + 1 =>
      rw [decCharsAux, decCharsAux]
      split
      · rfl
      · rename_i hn
        have hd : n / 10 < n := Nat.div_lt_self (by omega) (by omega)
        rw [ih (n / 10) hd fa fb (by omega) (by omega)]

/-- The one-step unfolding of `decChars`. -/
theorem decChars_unfold (n : Nat) :
    decChars n = if n < 10 then [digitToChar n]
      else decChars (n / 10) ++ [digitToChar (n % 10)] := by
  rw [decChars, decCharsAux]
  split
  · rfl
  · rename_i hn
    have hd : n / 10 < n := Nat.div_lt_self (by omega) (by omega)
    rw [decCharsAux_irrel (n / 10) n (n / 10 + 1) (by omega) (by omega)]
    rfl

/-- Value of a decimal digit string (most significant digit first). -/
def digitsVal (l : List Char) : Nat :=
  l.foldl (fun a c => 10 * a + (c.toNat - 48)) 0

/-- Model of Python `str.strip` (drop whitespace from both ends). -/
def pyStrip (l : List Char) : List Char :=
  ((l.dropWhile pyIsSpace).reverse.dropWhile pyIsSpace).reverse

/-- Model of Python `int(s)` on a string: optional sign after stripping
surrounding whitespace, then a nonempty run of decimal digits; `none` models
the `ValueError` raised on any other input. -/
def pyParseIntChars (l : List Char) : Option Int :=
  let t := pyStrip l
  if t.head? = some '-' then
    if t.tail ≠ [] ∧ t.tail.all isDigitChar then some (-(digitsVal t.tail : Int)) else none
  else if t.head? = some '+' then
    if t.tail ≠ [] ∧ t.tail.all isDigitChar then some ((digitsVal t.tail : Int)) else none
  else
    if t ≠ [] ∧ t.all isDigitChar then some ((digitsVal t : Int)) else none

/-- Model of Python `str(i)` for an `int` value. -/
def pyStrOfInt (i : Int) : List Char :=
  if i < 0 then '-' :: decChars i.natAbs else decChars i.toNat

/-- Model of Python `str.split` with a one-character separator. -/
def splitOnChar (sep : Char) : List Char → List (List Char)
  | [] => [[]]
  | c :: rest =>
    if c = sep then [] :: splitOnChar sep rest
    else
      match splitOnChar sep rest with
      | h :: t => (c :: h) :: t
      | [] => [[c]]

/-- Model of the Python slice `l[a:b]` for nonnegative bounds. -/
def pySlice (l : List α) (a b : Nat) : List α := (l.take b).drop a

/-! ### Basic lemmas about the builtin models -/

theorem decChars_ne_nil (n : Nat) : decChars n ≠ [] := by
  rw [decChars_unfold]
  split
  · simp
  · simp

theorem mem_decChars_isDigit (n : Nat) : ∀ c ∈ decChars n, isDigitChar c = true := by
  induction n using Nat.strong_induction_on with
  | _ n ih =>
    rw [decChars_unfold]
    split
    · rename_i h
      intro c hc
      simp only [List.mem_singleton] at hc
      subst hc
      interval_cases n <;> decide
    · rename_i h
      intro c hc
      rw [List.mem_append] at hc
      rcases hc with hc | hc
      · exact ih (n / 10) (Nat.div_lt_self (by omega) (by omega)) c hc
      · simp only [List.mem_singleton] at hc
        subst hc
        have : n % 10 < 10 := Nat.mod_lt _ (by omega)
        interval_cases h : (n % 10) <;> simp_all <;> decide

theorem digit_facts {c : Char} (h : isDigitChar c = true) :
    pyIsSpace c = false ∧ pyToUpper c = c ∧ pyToLower c = c ∧ c ≠ ',' ∧ c ≠ ' ' := by
  simp only [isDigitChar, Bool.and_eq_true, decide_eq_true_eq] at h
  obtain ⟨h0, h9⟩ := h
  refine ⟨?_, ?_, ?_, ?_, ?_⟩
  · simp only [pyIsSpace, Bool.or_eq_false_iff, beq_eq_false_iff_ne]
    refine ⟨⟨⟨⟨⟨?_, ?_⟩, ?_⟩, ?_⟩, ?_⟩, ?_⟩ <;>
      · intro he; subst he; revert h0 h9; decide
  · rw [pyToUpper, if_neg]
    rintro ⟨ha, _⟩
    have := le_trans ha h9
    revert this; decide
  · rw [pyToLower, if_neg]
    rintro ⟨hA, _⟩
    have := le_trans hA h9
    revert this; decide
  · intro he; subst he; revert h0 h9; decide
  · intro he; subst he; revert h0 h9; decide

theorem dropWhile_eq_self_of_all {p : Char → Bool} {l : List Char}
    (h : ∀ c ∈ l, p c = false) : l.dropWhile p = l := by
  cases l with
  | nil => rfl
  | cons a t =>
    rw [List.dropWhile_cons, if_neg]
    simp [h a (List.mem_cons_self a t)]

theorem pyStrip_eq_self {l : List Char} (h : ∀ c ∈ l, pyIsSpace c = false) :
    pyStrip l = l := by
  unfold pyStrip
  rw [dropWhile_eq_self_of_all h, dropWhile_eq_self_of_all, List.reverse_reverse]
  intro c hc
  exact h c (List.mem_reverse.mp hc)

theorem digitsVal_append_digit (l : List Char) (c : Char) :
    digitsVal (l ++ [c]) = 10 * digitsVal l + (c.toNat - 48) := by
  simp [digitsVal, List.foldl_append]

theorem digitsVal_decChars (n : Nat) : digitsVal (decChars n) = n := by
  induction n using Nat.strong_induction_on with
  | _ n ih =>
    rw [decChars_unfold]
    split
    · rename_i h
      interval_cases n <;> decide
    · rename_i h
      rw [digitsVal_append_digit, ih (n / 10) (Nat.div_lt_self (by omega) (by omega))]
      have h10 : n % 10 < 10 := Nat.mod_lt _ (by omega)
      have : (digitToChar (n % 10)).toNat - 48 = n % 10 := by
        interval_cases hx : (n % 10) <;> decide
      omega

theorem pyParseIntChars_decChars (n : Nat) : pyParseIntChars (decChars n) = some (n : Int) := by
  have hdig := mem_decChars_isDigit n
  have hne := decChars_ne_nil n
  have hstrip : pyStrip (decChars n) = decChars n :=
    pyStrip_eq_self (fun c hc => (digit_facts (hdig c hc)).1)
  have hall : (decChars n).all isDigitChar = true := List.all_eq_true.mpr hdig
  have hhead : ∀ x, (decChars n).head? = some x → isDigitChar x = true := by
    intro x hx
    exact hdig x (List.mem_of_mem_head? hx)
  unfold pyParseIntChars
  simp only [hstrip]
  rw [if_neg, if_neg, if_pos ⟨hne, hall⟩, digitsVal_decChars]
  · intro hplus
    have := hhead _ hplus
    revert this; decide
  · intro hminus
    have := hhead _ hminus
    revert this; decide

theorem pyParseIntChars_pyStrOfInt (i : Int) : pyParseIntChars (pyStrOfInt i) = some i := by
  unfold pyStrOfInt
  split
  · rename_i hneg
    have hdig := mem_decChars_isDigit i.natAbs
    have hne := decChars_ne_nil i.natAbs
    have hstrip : pyStrip ('-' :: decChars i.natAbs) = '-' :: decChars i.natAbs := by
      apply pyStrip_eq_self
      intro c hc
      rcases List.mem_cons.mp hc with hc | hc
      · subst hc; decide
      · exact (digit_facts (hdig c hc)).1
    have hall : (decChars i.natAbs).all isDigitChar = true := List.all_eq_true.mpr hdig
    unfold pyParseIntChars
    simp only [hstrip, List.head?_cons, List.tail_cons]
    rw [if_pos trivial, if_pos ⟨hne, hall⟩, digitsVal_decChars]
    congr 1
    omega
  · rename_i hpos
    rw [pyParseIntChars_decChars]
    congr 1
    omega

theorem splitOnChar_of_not_mem {sep : Char} {l : List Char} (h : sep ∉ l) :
    splitOnChar sep l = [l] := by
  induction l with
  | nil => rfl
  | cons a t ih =>
    rw [splitOnChar, if_neg, ih (fun hm => h (List.mem_cons_of_mem a hm))]
    intro he
    exact h (he ▸ List.mem_cons_self a t)

theorem splitOnChar_append {sep : Char} {a : List Char} (b : List Char) (h : sep ∉ a) :
    splitOnChar sep (a ++ sep :: b) = a :: splitOnChar sep b := by
  induction a with
  | nil => simp [splitOnChar]
  | cons x t ih =>
    have hx : x ≠ sep := fun he => h (he ▸ List.mem_cons_self x t)
    have ht : sep ∉ t := fun hm => h (List.mem_cons_of_mem x hm)
    rw [List.cons_append, splitOnChar, if_neg hx, ih ht]

/-! ### shp2dxf.py — attribute-record color decoder (`_parse_rgb_from_record`) -/

/-- A value held in a shapefile attribute record: a string, an integer, or
Python `None`. -/
inductive FieldVal where
  | str (s : List Char)
  | int (i : Int)
  | null
  deriving DecidableEq, Repr

/-- An RGB triple as produced by the converters (Python ints). -/
abbrev Rgb := Int × Int × Int

/-- An attribute record paired with its (lowercased) field names:
`rec` zipped with `field_names_lower` from the source. -/
abbrev AttrRecord := List (String × FieldVal)

/-- Model of `name_to_idx.get(name)` followed by `rec[idx]`: the dict
comprehension `{n: i for i, n in enumerate(field_names_lower)}` keeps the
LAST index for a duplicated name, so lookup returns the last matching value. -/
def lookupField (rec : AttrRecord) (name : String) : Option FieldVal :=
  ((rec.filter (fun p => p.1 == name)).getLast?).map (·.2)

/-- Model of the inner `get_val(*candidates)` helper: returns the value of the
first candidate name that is PRESENT in the record (even if that value is
Python `None`), else absent. -/
def get_val (rec : AttrRecord) : List String → Option FieldVal
  | [] => none
  | c :: rest =>
    match lookupField rec c with
    | some v => some v
    | none => get_val rec rest

/-- Model of Python `int(x)` on a record value (`None` raises `TypeError`). -/
def pyIntOfVal : FieldVal → Option Int
  | .int i => some i
  | .str s => pyParseIntChars s
  | .null => none

/-- Step 1 body of `_parse_rgb_from_record` applied to the `rgb_text` string:
`val.lower().startswith("rgb(") and val.endswith(")")`, then
`val[4:-1].split(",")`, three `int(...)` conversions, and the 0..255 range
check; any failure falls through (returns `none`). -/
def parseRgbTextVal (v : List Char) : Option Rgb :=
  if ("rgb(".data.isPrefixOf (v.map pyToLower)) ∧ v.getLast? = some ')' then
    match splitOnChar ',' ((v.drop 4).dropLast) with
    | [p1, p2, p3] =>
      match pyParseIntChars p1, pyParseIntChars p2, pyParseIntChars p3 with
      | some R, some G, some B =>
        if 0 ≤ R ∧ R ≤ 255 ∧ 0 ≤ G ∧ G ≤ 255 ∧ 0 ≤ B ∧ B ≤ 255 then some (R, G, B)
        else none
      | _, _, _ => none
    | _ => none
  else none

/-- Resolution step 1: the `rgb_text` column. -/
def rgbStep1 (rec : AttrRecord) : Option Rgb :=
  match lookupField rec "rgb_text" with
  | some (.str v) => parseRgbTextVal v
  | _ => none

/-- Resolution step 2: separate integer columns `r`, `g`, `b`; the
`is not None` guards, then `int(...)` conversions with a try/except, then the
0..255 range check. -/
def rgbStep2 (rec : AttrRecord) : Option Rgb :=
  match get_val rec ["r"], get_val rec ["g"], get_val rec ["b"] with
  | some rv, some gv, some bv =>
    if rv = .null ∨ gv = .null ∨ bv = .null then none
    else
      match pyIntOfVal rv, pyIntOfVal gv, pyIntOfVal bv with
      | some R, some G, some B =>
        if 0 ≤ R ∧ R ≤ 255 ∧ 0 ≤ G ∧ G ≤ 255 ∧ 0 ≤ B ∧ B ≤ 255 then some (R, G, B)
        else none
      | _, _, _ => none
  | _, _, _ => none

/-- The string held by the `color`/`colour`/`clr` field after `strip()` and
removal of a single leading `#`, shared by resolution steps 3 and 4. -/
def colorFieldStr (rec : AttrRecord) : Option (List Char) :=
  match get_val rec ["color", "colour", "clr"] with
  | some (.str sv) =>
    let s := pyStrip sv
    match s with
    | '#' :: rest => some rest
    | _ => some s
  | _ => none

/-- Resolution step 3: a 6-hex-digit color string (after the `#` strip);
`int(s[0:2], 16)` etc. returned without a range check. -/
def rgbStep3 (rec : AttrRecord) : Option Rgb :=
  match colorFieldStr rec with
  | some s =>
    match s with
    | [c1, c2, c3, c4, c5, c6] =>
      if [c1, c2, c3, c4, c5, c6].all isHexDigitChar then
        some ((16 * hexDigitVal c1 + hexDigitVal c2 : Nat),
              (16 * hexDigitVal c3 + hexDigitVal c4 : Nat),
              (16 * hexDigitVal c5 + hexDigitVal c6 : Nat))
      else none
    | _ => none
  | none => none

/-- Resolution step 4: the same color string as a CSV triple, after removing
every `(` and `)` (`s.replace("(","").replace(")","")`), splitting on `,`,
and stripping each part; three `int(...)` conversions and the range check. -/
def rgbStep4 (rec : AttrRecord) : Option Rgb :=
  match colorFieldStr rec with
  | some s =>
    let cleaned := (s.filter (fun c => c ≠ '(')).filter (fun c => c ≠ ')')
    match (splitOnChar ',' cleaned).map pyStrip with
    | [p1, p2, p3] =>
      match pyParseIntChars p1, pyParseIntChars p2, pyParseIntChars p3 with
      | some R, some G, some B =>
        if 0 ≤ R ∧ R ≤ 255 ∧ 0 ≤ G ∧ G ≤ 255 ∧ 0 ≤ B ∧ B ≤ 255 then some (R, G, B)
        else none
      | _, _, _ => none
    | _ => none
  | none => none

/-- Resolution step 5: the `aci`/`autocadcolorindex` field; `int(aci_val)`
inside a try/except, the `aci not in (0, 256)` guard, then the indexed-color
lookup `ezdxf.colors.aci2rgb` (abstract `table`; `none` = the exception it
raises, which the source catches and turns into fall-through). -/
def rgbStep5 (table : Int → Option Rgb) (rec : AttrRecord) : Option Rgb :=
  match get_val rec ["aci", "autocadcolorindex"] with
  | some v =>
    if v = .null then none
    else
      match pyIntOfVal v with
      | some aci =>
        if aci ≠ 0 ∧ aci ≠ 256 then
          match table aci with
          | some rgb => some rgb
          | none => none
        else none
      | none => none
  | none => none

/-- Embedding of `_parse_rgb_from_record` (shp2dxf.py lines 30-114): the five
resolution steps tried in order by sequential early returns, with the final
`return 0, 0, 0` default. -/
def parse_rgb_from_record (table : Int → Option Rgb) (rec : AttrRecord) : Rgb :=
  match rgbStep1 rec with
  | some c => c
  | none =>
    match rgbStep2 rec with
    | some c => c
    | none =>
      match rgbStep3 rec with
      | some c => c
      | none =>
        match rgbStep4 rec with
        | some c => c
        | none =>
          match rgbStep5 table rec with
          | some c => c
          | none => (0, 0, 0)

/-- Stand-in for the standard indexed-color table of the external drawing
library, defined exactly on indices 1..255 (used to instantiate witnesses).
Modelled from the spec: the "standard 255-entry indexed-color table" of §4.2;
the concrete channel values are irrelevant to every claim. -/
def modelAciTable : Int → Option Rgb :=
  fun i => if 1 ≤ i ∧ i ≤ 255 then some (i % 256, i % 7, 0) else none

/-! ### dxf2shp.py — entity color resolution, routing and ring closing -/

/-- Model of `ezdxf.colors.int2rgb`: `((v >> 16) & 0xFF, (v >> 8) & 0xFF, v & 0xFF)`. -/
def int2rgb (v : Nat) : Rgb :=
  ((((v >>> 16) % 256 : Nat) : Int), (((v >>> 8) % 256 : Nat) : Int), ((v % 256 : Nat) : Int))

/-- The color-relevant attributes of one drawing entity as read through
`ent.dxf`: `true_color` when `hasattr` holds, the raw indexed `color`
attribute (`none` models attribute absence / Python `None`), and the layer
name (`none` models absence). -/
structure EntityColorCtx where
  true_color : Option Nat
  color : Option Int
  layer : Option String
  deriving Repr

/-- The layer table of the document: layer name to the layer's `color`
attribute (`none` models a falsy/unset color). -/
abbrev LayerTable := List (String × Option Int)

/-- Model of `doc.layers.get(name)` (`none` = the exception it raises when
the layer does not exist, caught by the source). -/
def lookupLayer (layers : LayerTable) (name : String) : Option (Option Int) :=
  (layers.find? (fun p => p.1 == name)).map (·.2)

/-- Embedding of `entity_rgb` (dxf2shp.py lines 155-175).  The result is
`none` when an exception escapes the function: the only fallible operation
OUTSIDE a try block is the indexed-color lookup for an explicit entity color.
Note `int(getattr(d, "color", 256) or 256)`: a falsy color value (0 or
absent) becomes 256 before the sentinel test, and
`int(layer_obj.color or 7)`: a falsy layer color becomes 7. -/
def entity_rgb (table : Int → Option Rgb) (layers : LayerTable)
    (e : EntityColorCtx) : Option Rgb :=
  match e.true_color with
  | some tc => some (int2rgb tc)
  | none =>
    let aci : Int := match e.color with
      | none => 256
      | some c => if c = 0 then 256 else c
    if aci ≠ 0 ∧ aci ≠ 256 then
      match table aci with
      | some rgb => some rgb
      | none => none
    else
      let lay : String := match e.layer with
        | none => "0"
        | some s => if s = "" then "0" else s
      match lookupLayer layers lay with
      | none => some (0, 0, 0)
      | some lc =>
        let c : Int := match lc with
          | none => 7
          | some v => if v = 0 then 7 else v
        match table c with
        | some rgb => some rgb
        | none => some (0, 0, 0)

/-- The layer-inheritance branch of `entity_rgb` (dxf2shp.py lines 167-175),
stated separately to express fall-through. -/
def entityLayerRgb (table : Int → Option Rgb) (layers : LayerTable)
    (e : EntityColorCtx) : Option Rgb :=
  let lay : String := match e.layer with
    | none => "0"
    | some s => if s = "" then "0" else s
  match lookupLayer layers lay with
  | none => some (0, 0, 0)
  | some lc =>
    let c : Int := match lc with
      | none => 7
      | some v => if v = 0 then 7 else v
    match table c with
    | some rgb => some rgb
    | none => some (0, 0, 0)

/-- Embedding of `close_if_needed` (dxf2shp.py lines 98-99):
`pts + [pts[0]] if pts and pts[0] != pts[-1] else pts`. -/
def close_if_needed {α : Type} [DecidableEq α] : List α → List α
  | [] => []
  | p :: rest =>
    if (p :: rest).getLast? = some p then p :: rest else (p :: rest) ++ [p]

/-- Destination bucket of one polyline-like entity, with the point list that
is written there. -/
inductive Routed (α : Type) where
  | polygon (ring : List α)
  | line (pts : List α)
  deriving DecidableEq, Repr

/-- Embedding of the LWPOLYLINE/POLYLINE routing in `convert_one_dxf`
(dxf2shp.py lines 197-221): `if is_closed(e) and len(pts) >= 3` route to the
polygons writer with `close_if_needed(pts)`, else to the lines writer with
`pts` unmodified. -/
def routePolyline {α : Type} [DecidableEq α] (closed : Bool) (pts : List α) : Routed α :=
  if closed ∧ 3 ≤ pts.length then .polygon (close_if_needed pts) else .line pts

/-- Embedding of the f-string `f"rgb({R},{G},{B})"` (dxf2shp.py line 181)
that encodes an entity's resolved color into the `RGB_text` attribute. -/
def encodeRgbText (R G B : Int) : List Char :=
  'r' :: 'g' :: 'b' :: '(' ::
    (pyStrOfInt R ++ ',' :: (pyStrOfInt G ++ ',' :: (pyStrOfInt B ++ [')'])))

/-- A file system fragment: newest write first, lookup returns the newest. -/
abbrev FileSys := List (String × String)

/-- Lookup of a path's content. -/
def fsLookup (fs : FileSys) (p : String) : Option String :=
  (fs.find? (fun q => q.1 == p)).map (·.2)

/-- Unconditional file write (Python `open(path, "w")` plus `write`). -/
def fsWrite (fs : FileSys) (p content : String) : FileSys := (p, content) :: fs

/-- Embedding of `write_cpg_if_missing` (dxf2shp.py lines 24-28): write the
fixed literal `UTF-8` to `base + ".cpg"` only when no file exists there. -/
def write_cpg_if_missing (fs : FileSys) (shp_base_path : String) : FileSys :=
  let cpg := shp_base_path ++ ".cpg"
  if (fsLookup fs cpg).isSome then fs else fsWrite fs cpg "UTF-8"

/-! ### shp2dxf.py — multipart splitting and polygon ring emission -/

/-- The slicing loop of `_split_parts`: consecutive pairs of the index list
`idxs` produce the slices `pts[a:b]`. -/
def pairSlices {α : Type} (pts : List α) : List Nat → List (List α)
  | a :: b :: rest => pySlice pts a b :: pairSlices pts (b :: rest)
  | _ => []

/-- Embedding of `_split_parts` (shp2dxf.py lines 16-27): append the end
sentinel `len(pts)` to the part-start indices and yield the slice between
each consecutive pair. -/
def split_parts {α : Type} (pts : List α) (parts : List Nat) : List (List α) :=
  pairSlices pts (parts ++ [pts.length])

/-- Embedding of the polygon ring closing in `convert_shp_to_dxf`
(shp2dxf.py lines 194-196): for a polygon part,
`pts + [pts[0]] if pts[0] != pts[-1] else pts`. -/
def polygonEntityPts {α : Type} [DecidableEq α] : List α → List α
  | [] => []
  | p :: rest =>
    if (p :: rest).getLast? = some p then p :: rest else (p :: rest) ++ [p]

/-- The closure round trip of one closed drawing polyline: route it to an
output shape (`convert_one_dxf`), then re-emit the polygon part as a drawing
entity's point list (`convert_shp_to_dxf`). -/
def roundTripRing {α : Type} [DecidableEq α] (pts : List α) : List α :=
  match routePolyline true pts with
  | .polygon ring => polygonEntityPts ring
  | .line l => l

/-! ### makePrj4shp.py — CRS catalog, WKT builders and the selection grammar -/

/-- Embedding of `wkt_geogcs_wgs84`. -/
def wkt_geogcs_wgs84 : String :=
  "GEOGCS[\"WGS 84\",DATUM[\"WGS_1984\",SPHEROID[\"WGS 84\",6378137,298.257223563]],PRIMEM[\"Greenwich\",0],UNIT[\"degree\",0.0174532925199433]]"

/-- Embedding of `wkt_geogcs_etrs89`. -/
def wkt_geogcs_etrs89 : String :=
  "GEOGCS[\"ETRS89\",DATUM[\"ETRS_1989\",SPHEROID[\"GRS 1980\",6378137,298.257222101]],PRIMEM[\"Greenwich\",0],UNIT[\"degree\",0.0174532925199433]]"

/-- Embedding of `build_wkt_tm`; the numeric parameters appear as the strings
Python's f-string interpolation renders for the values passed at the three
call sites (`0` for the int literal, `0.9996`, `1.0`, `500000.0`, etc.). -/
def build_wkt_tm (name geogcs lat0 lon0 k0 fe fn : String) : String :=
  "PROJCS[\"" ++ name ++ "\"," ++ geogcs ++
  ",PROJECTION[\"Transverse_Mercator\"],PARAMETER[\"latitude_of_origin\"," ++ lat0 ++
  "],PARAMETER[\"central_meridian\"," ++ lon0 ++
  "],PARAMETER[\"scale_factor\"," ++ k0 ++
  "],PARAMETER[\"false_easting\"," ++ fe ++
  "],PARAMETER[\"false_northing\"," ++ fn ++
  "],UNIT[\"metre\",1]]"

/-- Embedding of `wkt_utm_wgs84`: `lon0 = 6*zone - 183`, name
`WGS 84 / UTM zone {zone}N`. -/
def wkt_utm_wgs84 (zone : Nat) : String × String :=
  let lon0 : Int := 6 * (zone : Int) - 183
  let name := "WGS 84 / UTM zone " ++ toString zone ++ "N"
  (name, build_wkt_tm name wkt_geogcs_wgs84 "0" (toString lon0) "0.9996" "500000.0" "0.0")

/-- Embedding of `wkt_utm_euref89`: same parameters over the ETRS89 GEOGCS,
name `EUREF89 / UTM zone {zone}N`. -/
def wkt_utm_euref89 (zone : Nat) : String × String :=
  let lon0 : Int := 6 * (zone : Int) - 183
  let name := "EUREF89 / UTM zone " ++ toString zone ++ "N"
  (name, build_wkt_tm name wkt_geogcs_etrs89 "0" (toString lon0) "0.9996" "500000.0" "0.0")

/-- Embedding of `wkt_ntm`: `lon0 = zone + 0.5` (rendered `z.5`), scale 1.0,
FE 100000, FN 1000000, name `EUREF89 / NTM zone {zone}`. -/
def wkt_ntm (zone : Nat) : String × String :=
  let name := "EUREF89 / NTM zone " ++ toString zone
  (name, build_wkt_tm name wkt_geogcs_etrs89 "0.0" (toString zone ++ ".5") "1.0" "100000.0" "1000000.0")

/-- One catalog entry: (menu label, canonical key, WKT). -/
abbrev CrsEntry := String × String × String

/-- Embedding of `build_options` (makePrj4shp.py lines 90-118): EUREF89/UTM
zones 32,33,35, then WGS84/UTM zones 32,33,35, then NTM zones 5..20. -/
def build_options : List CrsEntry :=
  ([32, 33, 35].map fun z =>
    let p := wkt_utm_euref89 z
    (p.1 ++ " (EPSG:258" ++ toString z ++ ")", "EUREF89/UTM" ++ toString z, p.2)) ++
  ([32, 33, 35].map fun z =>
    let p := wkt_utm_wgs84 z
    (p.1 ++ " (EPSG:326" ++ toString z ++ ")", "WGS84/UTM" ++ toString z, p.2)) ++
  ((List.range' 5 16).map fun z =>
    let p := wkt_ntm z
    (p.1 ++ " (EPSG:" ++ toString (5100 + z) ++ ")", "NTM/" ++ toString z, p.2))

/-- The two-digit zone (with optional trailing `N`) at the end of a UTM
token: the `(\d{2})N?` tail of both UTM patterns, anchored at the end. -/
def twoDigitZone : List Char → Option Nat
  | [a, b] =>
    if isDigitChar a && isDigitChar b then some ((a.toNat - 48) * 10 + (b.toNat - 48)) else none
  | [a, b, 'N'] =>
    if isDigitChar a && isDigitChar b then some ((a.toNat - 48) * 10 + (b.toNat - 48)) else none
  | _ => none

/-- Full match of `(WGS|WGS84)/UTM(\d{2})N?`. -/
def matchWgsUtm : List Char → Option Nat
  | 'W' :: 'G' :: 'S' :: '8' :: '4' :: '/' :: 'U' :: 'T' :: 'M' :: rest => twoDigitZone rest
  | 'W' :: 'G' :: 'S' :: '/' :: 'U' :: 'T' :: 'M' :: rest => twoDigitZone rest
  | _ => none

/-- Full match of `UTM(\d{2})N?`. -/
def matchBareUtm : List Char → Option Nat
  | 'U' :: 'T' :: 'M' :: rest => twoDigitZone rest
  | _ => none

/-- Full match of `((EUREF89|ETRS89)/)?UTM(\d{2})N?`. -/
def matchEurefUtm : List Char → Option Nat
  | 'E' :: 'U' :: 'R' :: 'E' :: 'F' :: '8' :: '9' :: '/' :: rest => matchBareUtm rest
  | 'E' :: 'T' :: 'R' :: 'S' :: '8' :: '9' :: '/' :: rest => matchBareUtm rest
  | t => matchBareUtm t

/-- Full match of `NTM/(\d{1,2})`. -/
def matchNtm : List Char → Option Nat
  | 'N' :: 'T' :: 'M' :: '/' :: [a] =>
    if isDigitChar a then some (a.toNat - 48) else none
  | 'N' :: 'T' :: 'M' :: '/' :: [a, b] =>
    if isDigitChar a && isDigitChar b then some ((a.toNat - 48) * 10 + (b.toNat - 48)) else none
  | _ => none

/-- Embedding of the live `parse_choice` (makePrj4shp.py lines 124-173; the
unreachable duplicate body after the first `raise` is dead code): strip, try
a pure-digit 1-based index, else normalize (`upper`, remove spaces) and try
the WGS-UTM pattern, then the default/EUREF UTM pattern, then NTM with its
5..20 zone check.  `Except.error` models `raise ValueError` (message texts
abridged). -/
def parse_choice (s : List Char) (options : List CrsEntry) : Except String (String × String) :=
  let s := pyStrip s
  if s ≠ [] ∧ s.all isDigitChar then
    let idx := digitsVal s
    if 1 ≤ idx ∧ idx ≤ options.length then
      match options.get? (idx - 1) with
      | some o => .ok (o.1, o.2.2)
      | none => .error "Index out of range."
    else .error "Index out of range."
  else
    let t := (s.map pyToUpper).filter (fun c => c ≠ ' ')
    match matchWgsUtm t with
    | some zone =>
      let p := wkt_utm_wgs84 zone
      .ok (p.1 ++ " (WKT built)", p.2)
    | none =>
      match matchEurefUtm t with
      | some zone =>
        let p := wkt_utm_euref89 zone
        .ok (p.1 ++ " (WKT built)", p.2)
      | none =>
        match matchNtm t with
        | some zone =>
          if 5 ≤ zone ∧ zone ≤ 20 then
            let p := wkt_ntm zone
            .ok (p.1 ++ " (WKT built)", p.2)
          else .error "NTM zone must be 5-20 for mainland Norway."
        | none => .error "Unrecognized input."

/-- Model of `os.path.splitext(p)[0]`: split at the last dot that lies inside
the basename and has at least one non-dot character of the basename before
it; otherwise the path is unchanged. -/
def splitextBase (p : String) : String :=
  let r := p.data.reverse
  let pre := r.takeWhile (fun c => !(c == '.' || c == '/'))
  match r.drop pre.length with
  | '.' :: rest =>
    let stem := rest.takeWhile (fun c => c ≠ '/')
    if stem.isEmpty || stem.all (fun c => c == '.') then p else String.mk rest.reverse
  | _ => p

/-- Embedding of `write_sidecars` (makePrj4shp.py lines 220-229): write the
WKT newline-terminated to `base + ".prj"`, then write the fixed literal
`UTF-8` to `base + ".cpg"` — both with plain `open(-, "w")`, hence
unconditionally. -/
def write_sidecars (fs : FileSys) (shp_path wkt : String) : FileSys :=
  let base := splitextBase shp_path
  let fs := fsWrite fs (base ++ ".prj") (wkt ++ "\n")
  fsWrite fs (base ++ ".cpg") "UTF-8"

/-! ### Helper lemmas -/

theorem take_drop_append_drop {α : Type} {l : List α} {a b : Nat} (hab : a ≤ b) :
    (l.take b).drop a ++ l.drop b = l.drop a := by
  by_cases hb : b ≤ l.length
  · conv_rhs => rw [← List.take_append_drop b l]
    rw [List.drop_append_eq_append_drop]
    have h0 : a - (l.take b).length = 0 := by
      rw [List.length_take]
      omega
    rw [h0, List.drop_zero]
  · push_neg at hb
    have ht : l.take b = l := List.take_of_length_le (by omega)
    have hd : l.drop b = [] := List.drop_eq_nil_of_le (by omega)
    rw [ht, hd, List.append_nil]

theorem flatten_pairSlices {α : Type} (pts : List α) :
    ∀ (l : List Nat) (a : Nat), List.Chain (· ≤ ·) a l → (∀ p ∈ l, p ≤ pts.length) →
      (pairSlices pts (a :: l ++ [pts.length])).flatten = pts.drop a := by
  intro l
  induction l with
  | nil =>
    intro a _ _
    show (pairSlices pts [a, pts.length]).flatten = pts.drop a
    simp [pairSlices, pySlice]
  | cons b t ih =>
    intro a hchain hmem
    rw [List.chain_cons] at hchain
    have hb : b ≤ pts.length := hmem b (List.mem_cons_self b t)
    show (pySlice pts a b :: pairSlices pts (b :: t ++ [pts.length])).flatten = pts.drop a
    rw [List.flatten_cons, ih b hchain.2 (fun p hp => hmem p (List.mem_cons_of_mem b hp))]
    exact take_drop_append_drop hchain.1

theorem pairSlices_eq_zip {α : Type} (pts : List α) (parts : List Nat) :
    pairSlices pts (parts ++ [pts.length]) =
      (parts.zip (parts.tail ++ [pts.length])).map (fun ab => pySlice pts ab.1 ab.2) := by
  induction parts with
  | nil => rfl
  | cons a rest ih =>
    cases rest with
    | nil => rfl
    | cons b t =>
      show pySlice pts a b :: pairSlices pts ((b :: t) ++ [pts.length]) = _
      rw [ih]
      rfl

/-! ### Claim theorems: geometry routing and multipart splitting -/

/-- Claim C2: in the drawing-to-GIS direction a polyline-like entity is
routed to the polygons output iff the source's closed flag is set and it has
at least 3 points; the polygon ring is `close_if_needed` of the vertices
(first point appended exactly when first ≠ last), any other entity goes to
the lines output with its vertex sequence unmodified, and in particular an
open polyline whose endpoints coincide is never promoted to a polygon. -/
theorem c2_polyline_routing {α : Type} [DecidableEq α] (closed : Bool) (pts : List α)
    (hmulti : 2 ≤ pts.length) :
    ((∃ r, routePolyline closed pts = .polygon r) ↔ (closed = true ∧ 3 ≤ pts.length))
    ∧ (closed = true → 3 ≤ pts.length →
        routePolyline closed pts = .polygon (close_if_needed pts)
        ∧ (pts.head? ≠ pts.getLast? → close_if_needed pts = pts ++ pts.take 1)
        ∧ (pts.head? = pts.getLast? → close_if_needed pts = pts))
    ∧ (¬(closed = true ∧ 3 ≤ pts.length) → routePolyline closed pts = .line pts)
    ∧ (closed = false → pts.head? = pts.getLast? → routePolyline closed pts = .line pts) := by
  obtain ⟨p, rest, rfl⟩ : ∃ p rest, pts = p :: rest := by
    cases pts with
    | nil => simp at hmulti
    | cons p rest => exact ⟨p, rest, rfl⟩
  refine ⟨⟨?_, ?_⟩, ?_, ?_, ?_⟩
  · rintro ⟨r, hr⟩
    by_contra hcon
    rw [routePolyline, if_neg hcon] at hr
    exact Routed.noConfusion hr
  · rintro ⟨hc, h3⟩
    exact ⟨close_if_needed (p :: rest), by rw [routePolyline, if_pos ⟨hc, h3⟩]⟩
  · intro hc h3
    refine ⟨by rw [routePolyline, if_pos ⟨hc, h3⟩], ?_, ?_⟩
    · intro hne
      rw [List.head?_cons] at hne
      have htake : (p :: rest).take 1 = [p] := rfl
      rw [close_if_needed, if_neg (fun he => hne he.symm), htake]
    · intro he
      rw [List.head?_cons] at he
      rw [close_if_needed, if_pos he.symm]
  · intro hcon
    rw [routePolyline, if_neg hcon]
  · intro hc _
    rw [routePolyline, if_neg]
    rintro ⟨hc', _⟩
    rw [hc] at hc'
    exact Bool.false_ne_true hc'

/-- Witness for C2 at the concrete closed triangle `[0, 1, 2]` over `Int`. -/
theorem c2_polyline_routing_witness :
    2 ≤ ([0, 1, 2] : List Int).length
    ∧ routePolyline true ([0, 1, 2] : List Int) = .polygon [0, 1, 2, 0] := by
  refine ⟨by decide, ?_⟩
  have h := (c2_polyline_routing true ([0, 1, 2] : List Int) (by decide)).2.1 rfl (by decide)
  rw [h.1]
  decide

/-- Claim C6: for every closed drawing polyline with at least three distinct
vertices, routing it to an output shape and re-emitting the polygon part as
an entity yields a ring whose first and last points are equal and whose
interior vertex sequence (the ring without its final point) is exactly the
original vertex sequence. -/
theorem c6_closure_round_trip {α : Type} [DecidableEq α] (pts : List α)
    (h3 : 3 ≤ pts.length) (hnd : pts.Nodup) :
    routePolyline true pts = .polygon (close_if_needed pts)
    ∧ (roundTripRing pts).head? = (roundTripRing pts).getLast?
    ∧ (roundTripRing pts).dropLast = pts := by
  obtain ⟨p, rest, rfl⟩ : ∃ p rest, pts = p :: rest := by
    cases pts with
    | nil => simp at h3
    | cons p rest => exact ⟨p, rest, rfl⟩
  have hrest : rest ≠ [] := by
    intro h
    subst h
    simp at h3
  have hlast : (p :: rest).getLast? ≠ some p := by
    rw [List.getLast?_eq_getLast _ (List.cons_ne_nil p rest)]
    intro he
    have hgl : (p :: rest).getLast (List.cons_ne_nil p rest) = p := by
      exact Option.some_injective _ he
    have hmem : (p :: rest).getLast (List.cons_ne_nil p rest) ∈ rest := by
      cases rest with
      | nil => exact absurd rfl hrest
      | cons b t =>
        rw [List.getLast_cons (List.cons_ne_nil b t)]
        exact List.getLast_mem _
    rw [hgl] at hmem
    exact (List.nodup_cons.mp hnd).1 hmem
  have hclose : close_if_needed (p :: rest) = (p :: rest) ++ [p] := by
    rw [close_if_needed, if_neg hlast]
  have hroute : routePolyline true (p :: rest) = .polygon ((p :: rest) ++ [p]) := by
    rw [routePolyline, if_pos ⟨rfl, h3⟩, hclose]
  have hpe : polygonEntityPts ((p :: rest) ++ [p]) = (p :: rest) ++ [p] := by
    rw [List.cons_append, polygonEntityPts, if_pos]
    rw [← List.cons_append, List.getLast?_concat]
  have hrt : roundTripRing (p :: rest) = (p :: rest) ++ [p] := by
    rw [roundTripRing, hroute]
    exact hpe
  refine ⟨by rw [hroute, hclose], ?_, ?_⟩
  · rw [hrt, List.getLast?_concat, List.cons_append, List.head?_cons]
  · rw [hrt, List.dropLast_concat]

/-- Witness for C6 at the concrete closed polyline `[5, 6, 7]` over `Int`. -/
theorem c6_closure_round_trip_witness :
    3 ≤ ([5, 6, 7] : List Int).length ∧ ([5, 6, 7] : List Int).Nodup
    ∧ ((roundTripRing ([5, 6, 7] : List Int)).head? =
        (roundTripRing ([5, 6, 7] : List Int)).getLast?
      ∧ (roundTripRing ([5, 6, 7] : List Int)).dropLast = [5, 6, 7]) := by
  refine ⟨by decide, by decide, ?_⟩
  have h := c6_closure_round_trip ([5, 6, 7] : List Int) (by decide) (by decide)
  exact ⟨h.2.1, h.2.2⟩

/-- Claim C10: for a shape whose parts array holds ascending start indices
into its flat point list (first index 0, indices within bounds), the splitter
yields exactly the contiguous slices between consecutive start indices, the
last ending at the list's end, and concatenating the yielded parts in order
reproduces the original flat point list. -/
theorem c10_split_parts_partition {α : Type} (pts : List α) (parts : List Nat)
    (hhead : parts.head? = some 0) (hchain : List.Chain' (· ≤ ·) parts)
    (hbound : ∀ p ∈ parts, p ≤ pts.length) :
    split_parts pts parts =
      (parts.zip (parts.tail ++ [pts.length])).map (fun ab => pySlice pts ab.1 ab.2)
    ∧ (split_parts pts parts).flatten = pts := by
  refine ⟨pairSlices_eq_zip pts parts, ?_⟩
  cases parts with
  | nil => simp at hhead
  | cons a rest =>
    have ha : a = 0 := by
      rw [List.head?_cons] at hhead
      exact Option.some_injective _ hhead
    subst ha
    have hch : List.Chain (· ≤ ·) 0 rest := hchain
    rw [split_parts,
      flatten_pairSlices pts rest 0 hch (fun p hp => hbound p (List.mem_cons_of_mem 0 hp)),
      List.drop_zero]

/-- Witness for C10 at the concrete shape `[10, 20, 30, 40, 50]` with part
starts `[0, 2, 3]`. -/
theorem c10_split_parts_partition_witness :
    ([0, 2, 3] : List Nat).head? = some 0
    ∧ split_parts ([10, 20, 30, 40, 50] : List Int) [0, 2, 3] = [[10, 20], [30], [40, 50]]
    ∧ (split_parts ([10, 20, 30, 40, 50] : List Int) [0, 2, 3]).flatten = [10, 20, 30, 40, 50] := by
  refine ⟨by decide, by decide, ?_⟩
  exact (c10_split_parts_partition ([10, 20, 30, 40, 50] : List Int) [0, 2, 3] (by decide)
    (by simp [List.chain'_cons, List.chain'_singleton]) (by decide)).2

/-! ### Claim theorems: sidecar writing (C9) -/

/-- Counterexample to claim C9: the CRS sidecar writer `write_sidecars`
overwrites an existing encoding-declaration file instead of leaving it
unchanged — a pre-existing `.cpg` holding `LATIN1` holds `UTF-8` after the
call. -/
theorem c9_counterexample :
    fsLookup (write_sidecars [("out/a.cpg", "LATIN1")] "out/a.shp" "WKTTEXT") "out/a.cpg"
      = some "UTF-8"
    ∧ fsLookup [("out/a.cpg", "LATIN1")] "out/a.cpg" = some "LATIN1"
    ∧ some ("UTF-8" : String) ≠ some ("LATIN1" : String) := by
  refine ⟨rfl, rfl, by decide⟩

/-- Amended claim C9: `write_sidecars` writes the descriptor-text file with
the WKT newline-terminated and writes the encoding-declaration file with the
fixed literal `UTF-8` unconditionally (overwriting any existing file); the
skip-if-present behavior belongs only to the conversion path's
`write_cpg_if_missing`, which leaves an existing file unchanged and writes
`UTF-8` when the file is absent. -/
theorem c9_sidecar_write_behavior (fs : FileSys) (p wkt : String) :
    fsLookup (write_sidecars fs p wkt) (splitextBase p ++ ".prj") = some (wkt ++ "\n")
    ∧ fsLookup (write_sidecars fs p wkt) (splitextBase p ++ ".cpg") = some "UTF-8"
    ∧ (∀ fs2 b, (fsLookup fs2 (b ++ ".cpg")).isSome = true → write_cpg_if_missing fs2 b = fs2)
    ∧ (∀ fs2 b, fsLookup fs2 (b ++ ".cpg") = none →
        fsLookup (write_cpg_if_missing fs2 b) (b ++ ".cpg") = some "UTF-8") := by
  have hne : splitextBase p ++ ".cpg" ≠ splitextBase p ++ ".prj" := by
    intro h
    have hd := congrArg String.data h
    rw [String.data_append, String.data_append] at hd
    have := List.append_cancel_left hd
    exact absurd (congrArg String.mk this) (by decide)
  refine ⟨?_, ?_, ?_, ?_⟩
  · show fsLookup
      (fsWrite (fsWrite fs (splitextBase p ++ ".prj") (wkt ++ "\n")) (splitextBase p ++ ".cpg")
        "UTF-8") (splitextBase p ++ ".prj") = some (wkt ++ "\n")
    rw [fsWrite, fsWrite, fsLookup, List.find?_cons_of_neg _ (by simp [hne]),
      List.find?_cons_of_pos _ (by simp)]
    rfl
  · show fsLookup
      (fsWrite (fsWrite fs (splitextBase p ++ ".prj") (wkt ++ "\n")) (splitextBase p ++ ".cpg")
        "UTF-8") (splitextBase p ++ ".cpg") = some "UTF-8"
    rw [fsWrite, fsWrite, fsLookup, List.find?_cons_of_pos _ (by simp)]
    rfl
  · intro fs2 b hsome
    rw [write_cpg_if_missing, if_pos hsome]
  · intro fs2 b hnone
    rw [write_cpg_if_missing, if_neg (by rw [hnone]; simp), fsWrite, fsLookup,
      List.find?_cons_of_pos _ (by simp)]
    rfl

/-- Witness for C9 at a concrete file system. -/
theorem c9_sidecar_write_behavior_witness :
    fsLookup (write_sidecars [] "d/x.shp" "W") (splitextBase "d/x.shp" ++ ".prj") = some "W\n"
    ∧ write_cpg_if_missing [("b.cpg", "X")] "b" = [("b.cpg", "X")] := by
  refine ⟨(c9_sidecar_write_behavior [] "d/x.shp" "W").1, ?_⟩
  exact (c9_sidecar_write_behavior [] "d/x.shp" "W").2.2.1 [("b.cpg", "X")] "b" (by decide)

/-! ### Claim theorems: CRS index selection (C5) -/

/-- Counterexample to claim C5: the 7th catalog entry is the EUREF89/NTM
zone 5 entry (key `NTM/5`), not the WGS84/UTM35 entry, and `resolve("7")`
returns it. -/
theorem c5_counterexample :
    parse_choice ['7'] build_options = .ok ("EUREF89 / NTM zone 5 (EPSG:5105)", (wkt_ntm 5).2)
    ∧ build_options.get? 6 =
        some ("EUREF89 / NTM zone 5 (EPSG:5105)", "NTM/5", (wkt_ntm 5).2)
    ∧ (wkt_ntm 5).2 ≠ (wkt_utm_wgs84 35).2
    ∧ ("EUREF89 / NTM zone 5 (EPSG:5105)" : String) ≠ (wkt_utm_wgs84 35).1 := by
  refine ⟨rfl, rfl, by decide, by decide⟩

/-- Amended claim C5: a pure-digit token is a 1-based index into the fixed
22-entry catalog ordered EUREF89/UTM{32,33,35}, WGS84/UTM{32,33,35},
NTM/{5..20}, failing outside [1,22]; `resolve("7")` returns the 7th entry,
which is the EUREF89/NTM zone 5 entry (WGS84/UTM35 is the 6th). -/
theorem c5_index_selection (s : List Char) (hne : s ≠ []) (hall : s.all isDigitChar = true) :
    build_options.length = 22
    ∧ build_options.map (fun e => e.2.1) =
      ["EUREF89/UTM32", "EUREF89/UTM33", "EUREF89/UTM35",
       "WGS84/UTM32", "WGS84/UTM33", "WGS84/UTM35",
       "NTM/5", "NTM/6", "NTM/7", "NTM/8", "NTM/9", "NTM/10", "NTM/11", "NTM/12",
       "NTM/13", "NTM/14", "NTM/15", "NTM/16", "NTM/17", "NTM/18", "NTM/19", "NTM/20"]
    ∧ (∀ o, 1 ≤ digitsVal s → digitsVal s ≤ 22 →
        build_options.get? (digitsVal s - 1) = some o →
        parse_choice s build_options = .ok (o.1, o.2.2))
    ∧ (digitsVal s = 0 ∨ 22 < digitsVal s →
        parse_choice s build_options = .error "Index out of range.")
    ∧ parse_choice ['7'] build_options =
        .ok ("EUREF89 / NTM zone 5 (EPSG:5105)", (wkt_ntm 5).2) := by
  have hstrip : pyStrip s = s := by
    apply pyStrip_eq_self
    intro c hc
    exact (digit_facts (List.all_eq_true.mp hall c hc)).1
  have hlen : build_options.length = 22 := rfl
  refine ⟨rfl, rfl, ?_, ?_, rfl⟩
  · intro o h1 h22 hget
    simp only [parse_choice, hstrip]
    rw [if_pos ⟨hne, hall⟩, if_pos (by rw [hlen]; exact ⟨h1, h22⟩), hget]
  · intro hout
    simp only [parse_choice, hstrip]
    rw [if_pos ⟨hne, hall⟩, if_neg (by rw [hlen]; omega)]

/-- Witness for C5 at the out-of-range pure-digit token `99`. -/
theorem c5_index_selection_witness :
    (['9', '9'] : List Char) ≠ [] ∧ (['9', '9'] : List Char).all isDigitChar = true
    ∧ parse_choice ['9', '9'] build_options = .error "Index out of range." := by
  refine ⟨by decide, by decide, ?_⟩
  exact (c5_index_selection ['9', '9'] (by decide) (by decide)).2.2.2.1 (Or.inr (by decide))

/-! ### Claim theorems: entity-color resolution (C8) -/

/-- The effective layer name consulted by the layer branch of `entity_rgb`:
`getattr(d, "layer", None) or "0"`. -/
def effLayerName (e : EntityColorCtx) : String :=
  match e.layer with
  | none => "0"
  | some s => if s = "" then "0" else s

/-- Counterexample to claim C8: for an entity holding the explicit color
index 300 the table lookup is outside the indexed-color table's domain and
the failure propagates (`none` = the exception escapes `entity_rgb`), so the
path does raise for some entity. -/
theorem c8_counterexample :
    entity_rgb modelAciTable [] { true_color := none, color := some 300, layer := some "0" }
      = none
    ∧ modelAciTable 300 = none := by
  exact ⟨by decide, by decide⟩

/-- Amended claim C8: `entity_rgb` prefers an explicit true color; explicit
index values 0 and 256 (and an absent color attribute) are never passed to
the indexed-color table and fall through to the layer branch; any other
explicit index is passed to the table directly, so the result is exactly the
table's answer — including a propagated failure when the index is outside
the table's domain (the claim's "never raises" holds only when consulted
explicit indices are in the table's domain).  The layer branch substitutes
index 7 for an unset/zero layer color and returns (0,0,0) on any lookup
failure. -/
theorem c8_entity_color_policy (table : Int → Option Rgb) (layers : LayerTable)
    (e : EntityColorCtx) :
    (∀ tc, e.true_color = some tc → entity_rgb table layers e = some (int2rgb tc))
    ∧ (e.true_color = none → (e.color = none ∨ e.color = some 0 ∨ e.color = some 256) →
        entity_rgb table layers e = entityLayerRgb table layers e)
    ∧ (e.true_color = none → ∀ c, e.color = some c → c ≠ 0 → c ≠ 256 →
        entity_rgb table layers e = table c)
    ∧ (lookupLayer layers (effLayerName e) = none →
        entityLayerRgb table layers e = some (0, 0, 0))
    ∧ (∀ lc, lookupLayer layers (effLayerName e) = some lc → lc = none ∨ lc = some 0 →
        entityLayerRgb table layers e = some ((table 7).getD (0, 0, 0)))
    ∧ (e.true_color = none →
        (e.color = none ∨ ∃ c, e.color = some c ∧ (c = 0 ∨ c = 256 ∨ (table c).isSome = true)) →
        (entity_rgb table layers e).isSome = true) := by
  obtain ⟨tco, co, lo⟩ := e
  have hlayerTotal : (entityLayerRgb table layers ⟨tco, co, lo⟩).isSome = true := by
    show ((match lookupLayer layers (effLayerName ⟨tco, co, lo⟩) with
      | none => some (0, 0, 0)
      | some lc =>
        (match table (match lc with | none => 7 | some v => if v = 0 then 7 else v) with
        | some rgb => some rgb
        | none => some (0, 0, 0))) : Option Rgb).isSome = true
    cases lookupLayer layers (effLayerName ⟨tco, co, lo⟩) with
    | none => rfl
    | some lc =>
      show ((match table (match lc with | none => 7 | some v => if v = 0 then 7 else v) with
        | some rgb => some rgb
        | none => some (0, 0, 0)) : Option Rgb).isSome = true
      cases table (match lc with | none => 7 | some v => if v = 0 then 7 else v) with
      | none => rfl
      | some rgb => rfl
  refine ⟨?_, ?_, ?_, ?_, ?_, ?_⟩
  · rintro tc rfl
    rfl
  · rintro rfl hco
    rcases hco with rfl | rfl | rfl
    · rfl
    · rfl
    · rfl
  · rintro rfl c rfl hc0 hc256
    show (if ((if c = 0 then (256 : Int) else c) ≠ 0 ∧ (if c = 0 then (256 : Int) else c) ≠ 256)
        then (match table (if c = 0 then (256 : Int) else c) with
          | some rgb => some rgb
          | none => none)
        else entityLayerRgb table layers ⟨none, some c, lo⟩) = table c
    rw [if_neg hc0, if_pos ⟨hc0, hc256⟩]
    cases table c with
    | none => rfl
    | some rgb => rfl
  · intro hnone
    show (match lookupLayer layers (effLayerName ⟨tco, co, lo⟩) with
      | none => some (0, 0, 0)
      | some lc =>
        (match table (match lc with | none => 7 | some v => if v = 0 then 7 else v) with
        | some rgb => some rgb
        | none => some (0, 0, 0))) = some ((0 : Int), (0 : Int), (0 : Int))
    rw [hnone]
  · intro lc hsome hlc
    show (match lookupLayer layers (effLayerName ⟨tco, co, lo⟩) with
      | none => some (0, 0, 0)
      | some lc =>
        (match table (match lc with | none => 7 | some v => if v = 0 then 7 else v) with
        | some rgb => some rgb
        | none => some (0, 0, 0))) = some ((table 7).getD (0, 0, 0))
    rw [hsome]
    rcases hlc with rfl | rfl
    · show (match table 7 with | some rgb => some rgb | none => some (0, 0, 0))
        = some ((table 7).getD (0, 0, 0))
      cases table 7 with
      | none => rfl
      | some rgb => rfl
    · show (match table (if (0 : Int) = 0 then 7 else 0) with
          | some rgb => some rgb | none => some (0, 0, 0))
        = some ((table 7).getD (0, 0, 0))
      rw [if_pos rfl]
      cases table 7 with
      | none => rfl
      | some rgb => rfl
  · rintro rfl hdom
    rcases hdom with rfl | ⟨c, rfl, hc⟩
    · exact hlayerTotal
    · rcases hc with rfl | rfl | hc
      · exact hlayerTotal
      · exact hlayerTotal
      · by_cases hc0 : c = 0
        · subst hc0
          exact hlayerTotal
        · by_cases hc256 : c = 256
          · subst hc256
            exact hlayerTotal
          · show ((if ((if c = 0 then (256 : Int) else c) ≠ 0
                ∧ (if c = 0 then (256 : Int) else c) ≠ 256)
                then (match table (if c = 0 then (256 : Int) else c) with
                  | some rgb => some rgb
                  | none => none)
                else entityLayerRgb table layers ⟨none, some c, lo⟩) : Option Rgb).isSome = true
            rw [if_neg hc0, if_pos ⟨hc0, hc256⟩]
            obtain ⟨rgb, hrgb⟩ := Option.isSome_iff_exists.mp hc
            rw [hrgb]
            rfl

/-- Witness for C8 at concrete entities over the modelled table. -/
theorem c8_entity_color_policy_witness :
    entity_rgb modelAciTable [("L", some 5)]
        { true_color := none, color := some 3, layer := some "L" } = modelAciTable 3
    ∧ entity_rgb modelAciTable [("L", some 5)]
        { true_color := none, color := some 256, layer := some "L" }
      = entityLayerRgb modelAciTable [("L", some 5)]
        { true_color := none, color := some 256, layer := some "L" } := by
  refine ⟨?_, ?_⟩
  · exact (c8_entity_color_policy modelAciTable [("L", some 5)]
      { true_color := none, color := some 3, layer := some "L" }).2.2.1 rfl 3 rfl
      (by decide) (by decide)
  · exact (c8_entity_color_policy modelAciTable [("L", some 5)]
      { true_color := none, color := some 256, layer := some "L" }).2.1 rfl
      (Or.inr (Or.inr rfl))

/-! ### Helper lemmas for the decoder chain -/

theorem parse_eq_of_step1 (table : Int → Option Rgb) (rec : AttrRecord) {c : Rgb}
    (h : rgbStep1 rec = some c) : parse_rgb_from_record table rec = c := by
  rw [parse_rgb_from_record, h]

theorem parse_eq_of_step2 (table : Int → Option Rgb) (rec : AttrRecord) {c : Rgb}
    (h1 : rgbStep1 rec = none) (h2 : rgbStep2 rec = some c) :
    parse_rgb_from_record table rec = c := by
  rw [parse_rgb_from_record, h1, h2]

theorem parse_eq_of_step3 (table : Int → Option Rgb) (rec : AttrRecord) {c : Rgb}
    (h1 : rgbStep1 rec = none) (h2 : rgbStep2 rec = none) (h3 : rgbStep3 rec = some c) :
    parse_rgb_from_record table rec = c := by
  rw [parse_rgb_from_record, h1, h2, h3]

theorem parse_eq_of_step4 (table : Int → Option Rgb) (rec : AttrRecord) {c : Rgb}
    (h1 : rgbStep1 rec = none) (h2 : rgbStep2 rec = none) (h3 : rgbStep3 rec = none)
    (h4 : rgbStep4 rec = some c) : parse_rgb_from_record table rec = c := by
  rw [parse_rgb_from_record, h1, h2, h3, h4]

theorem parse_eq_of_step5 (table : Int → Option Rgb) (rec : AttrRecord) {c : Rgb}
    (h1 : rgbStep1 rec = none) (h2 : rgbStep2 rec = none) (h3 : rgbStep3 rec = none)
    (h4 : rgbStep4 rec = none) (h5 : rgbStep5 table rec = some c) :
    parse_rgb_from_record table rec = c := by
  rw [parse_rgb_from_record, h1, h2, h3, h4, h5]

theorem parse_eq_default (table : Int → Option Rgb) (rec : AttrRecord)
    (h1 : rgbStep1 rec = none) (h2 : rgbStep2 rec = none) (h3 : rgbStep3 rec = none)
    (h4 : rgbStep4 rec = none) (h5 : rgbStep5 table rec = none) :
    parse_rgb_from_record table rec = (0, 0, 0) := by
  rw [parse_rgb_from_record, h1, h2, h3, h4, h5]

/-! ### Claim theorems: the attribute-record color fallback chain (C1) -/

/-- Claim C1: the attribute-record color decoder tries, in order, the
`rgb_text` field, the `r`,`g`,`b` integer fields, the hex form and the CSV
form of the `color`/`colour`/`clr` field, and the `aci` index (excluding 0
and 256) through the indexed-color table, returning the first step's value;
a record with both a valid `rgb_text` field and different valid `r`,`g`,`b`
fields resolves to the `rgb_text` value, and when every step fails the
result is (0,0,0) (the function is total — no exception escapes). -/
theorem c1_decode_chain (table : Int → Option Rgb) (rec : AttrRecord) :
    (∀ v c, lookupField rec "rgb_text" = some (.str v) → parseRgbTextVal v = some c →
      parse_rgb_from_record table rec = c)
    ∧ (rgbStep1 rec = none → ∀ c, rgbStep2 rec = some c →
      parse_rgb_from_record table rec = c)
    ∧ (rgbStep1 rec = none → rgbStep2 rec = none → ∀ c, rgbStep3 rec = some c →
      parse_rgb_from_record table rec = c)
    ∧ (rgbStep1 rec = none → rgbStep2 rec = none → rgbStep3 rec = none →
      ∀ c, rgbStep4 rec = some c → parse_rgb_from_record table rec = c)
    ∧ (rgbStep1 rec = none → rgbStep2 rec = none → rgbStep3 rec = none →
      rgbStep4 rec = none → ∀ c, rgbStep5 table rec = some c →
      parse_rgb_from_record table rec = c)
    ∧ (rgbStep1 rec = none → rgbStep2 rec = none → rgbStep3 rec = none →
      rgbStep4 rec = none → rgbStep5 table rec = none →
      parse_rgb_from_record table rec = (0, 0, 0))
    ∧ (∀ c c2, rgbStep1 rec = some c → rgbStep2 rec = some c2 → c ≠ c2 →
      parse_rgb_from_record table rec = c ∧ parse_rgb_from_record table rec ≠ c2) := by
  refine ⟨?_, ?_, ?_, ?_, ?_, ?_, ?_⟩
  · intro v c hl hp
    apply parse_eq_of_step1
    rw [rgbStep1, hl]
    exact hp
  · intro h1 c h2
    exact parse_eq_of_step2 table rec h1 h2
  · intro h1 h2 c h3
    exact parse_eq_of_step3 table rec h1 h2 h3
  · intro h1 h2 h3 c h4
    exact parse_eq_of_step4 table rec h1 h2 h3 h4
  · intro h1 h2 h3 h4 c h5
    exact parse_eq_of_step5 table rec h1 h2 h3 h4 h5
  · intro h1 h2 h3 h4 h5
    exact parse_eq_default table rec h1 h2 h3 h4 h5
  · intro c c2 h1 _ hne
    have := parse_eq_of_step1 table rec h1
    exact ⟨this, by rw [this]; exact hne⟩

/-- Witness for C1 at a concrete record holding both a valid `rgb_text`
field and conflicting valid `r`,`g`,`b` fields. -/
theorem c1_decode_chain_witness :
    rgbStep1 [("rgb_text", FieldVal.str "rgb(1,2,3)".data),
        ("r", FieldVal.int 9), ("g", FieldVal.int 8), ("b", FieldVal.int 7)] = some (1, 2, 3)
    ∧ rgbStep2 [("rgb_text", FieldVal.str "rgb(1,2,3)".data),
        ("r", FieldVal.int 9), ("g", FieldVal.int 8), ("b", FieldVal.int 7)] = some (9, 8, 7)
    ∧ parse_rgb_from_record modelAciTable
        [("rgb_text", FieldVal.str "rgb(1,2,3)".data),
         ("r", FieldVal.int 9), ("g", FieldVal.int 8), ("b", FieldVal.int 7)] = (1, 2, 3) := by
  refine ⟨by decide, by decide, ?_⟩
  exact ((c1_decode_chain modelAciTable
    [("rgb_text", FieldVal.str "rgb(1,2,3)".data),
     ("r", FieldVal.int 9), ("g", FieldVal.int 8), ("b", FieldVal.int 7)]).2.2.2.2.2.2
    (1, 2, 3) (9, 8, 7) (by decide) (by decide) (by decide)).1

/-! ### Claim theorems: color encode/decode round trip (C7) -/

theorem mem_pyStrOfInt (i : Int) : ∀ c ∈ pyStrOfInt i, c = '-' ∨ isDigitChar c = true := by
  unfold pyStrOfInt
  split
  · intro c hc
    rcases List.mem_cons.mp hc with rfl | hc
    · exact Or.inl rfl
    · exact Or.inr (mem_decChars_isDigit _ c hc)
  · intro c hc
    exact Or.inr (mem_decChars_isDigit _ c hc)

theorem comma_not_mem_pyStrOfInt (i : Int) : ',' ∉ pyStrOfInt i := by
  intro h
  rcases mem_pyStrOfInt i ',' h with he | hd
  · exact absurd he (by decide)
  · exact absurd hd (by decide)

theorem parseRgbTextVal_encode (R G B : Int) (hR0 : 0 ≤ R) (hR1 : R ≤ 255)
    (hG0 : 0 ≤ G) (hG1 : G ≤ 255) (hB0 : 0 ≤ B) (hB1 : B ≤ 255) :
    parseRgbTextVal (encodeRgbText R G B) = some (R, G, B) := by
  have hauxpre : ∀ (l : List Char),
      ("rgb(".data.isPrefixOf (List.map pyToLower ('r' :: 'g' :: 'b' :: '(' :: l))) = true := by
    intro l
    simp [List.isPrefixOf, pyToLower]
  have hpre : ("rgb(".data.isPrefixOf ((encodeRgbText R G B).map pyToLower)) = true :=
    hauxpre _
  have hassoc : pyStrOfInt R ++ ',' :: (pyStrOfInt G ++ ',' :: (pyStrOfInt B ++ [')']))
      = (pyStrOfInt R ++ ',' :: (pyStrOfInt G ++ ',' :: pyStrOfInt B)) ++ [')'] := by
    simp [List.append_assoc, List.cons_append]
  have hlast : (encodeRgbText R G B).getLast? = some ')' := by
    have he : encodeRgbText R G B
        = ('r' :: 'g' :: 'b' :: '(' ::
            (pyStrOfInt R ++ ',' :: (pyStrOfInt G ++ ',' :: pyStrOfInt B))) ++ [')'] := by
      rw [encodeRgbText, hassoc]
      rfl
    rw [he, List.getLast?_concat]
  have hmid : ((encodeRgbText R G B).drop 4).dropLast
      = pyStrOfInt R ++ ',' :: (pyStrOfInt G ++ ',' :: pyStrOfInt B) := by
    have hdrop : (encodeRgbText R G B).drop 4
        = pyStrOfInt R ++ ',' :: (pyStrOfInt G ++ ',' :: (pyStrOfInt B ++ [')'])) := rfl
    rw [hdrop, hassoc, List.dropLast_concat]
  have hsplit : splitOnChar ',' (pyStrOfInt R ++ ',' :: (pyStrOfInt G ++ ',' :: pyStrOfInt B))
      = [pyStrOfInt R, pyStrOfInt G, pyStrOfInt B] := by
    rw [splitOnChar_append _ (comma_not_mem_pyStrOfInt R),
      splitOnChar_append _ (comma_not_mem_pyStrOfInt G),
      splitOnChar_of_not_mem (comma_not_mem_pyStrOfInt B)]
  rw [parseRgbTextVal, if_pos ⟨hpre, hlast⟩, hmid, hsplit]
  show (match pyParseIntChars (pyStrOfInt R), pyParseIntChars (pyStrOfInt G),
      pyParseIntChars (pyStrOfInt B) with
    | some R2, some G2, some B2 =>
      if 0 ≤ R2 ∧ R2 ≤ 255 ∧ 0 ≤ G2 ∧ G2 ≤ 255 ∧ 0 ≤ B2 ∧ B2 ≤ 255 then some (R2, G2, B2)
      else none
    | _, _, _ => none) = some (R, G, B)
  rw [pyParseIntChars_pyStrOfInt R, pyParseIntChars_pyStrOfInt G, pyParseIntChars_pyStrOfInt B]
  exact if_pos ⟨hR0, hR1, hG0, hG1, hB0, hB1⟩

/-- Claim C7: for every color with integer channels in [0,255], writing the
canonical string `rgb(R,G,B)` into a record's `rgb_text` field and decoding
that record returns exactly the original color. -/
theorem c7_rgb_text_round_trip (table : Int → Option Rgb) (rec : AttrRecord) (R G B : Int)
    (hR0 : 0 ≤ R) (hR1 : R ≤ 255) (hG0 : 0 ≤ G) (hG1 : G ≤ 255) (hB0 : 0 ≤ B) (hB1 : B ≤ 255)
    (hfield : lookupField rec "rgb_text" = some (.str (encodeRgbText R G B))) :
    parse_rgb_from_record table rec = (R, G, B) := by
  apply parse_eq_of_step1
  rw [rgbStep1, hfield]
  exact parseRgbTextVal_encode R G B hR0 hR1 hG0 hG1 hB0 hB1

/-- Witness for C7 at the concrete color (255, 0, 12). -/
theorem c7_rgb_text_round_trip_witness :
    (0 : Int) ≤ 255 ∧ (255 : Int) ≤ 255
    ∧ String.mk (encodeRgbText 255 0 12) = "rgb(255,0,12)"
    ∧ parse_rgb_from_record modelAciTable
        [("rgb_text", FieldVal.str (encodeRgbText 255 0 12))] = (255, 0, 12) := by
  refine ⟨by decide, by decide, by decide, ?_⟩
  exact c7_rgb_text_round_trip modelAciTable
    [("rgb_text", FieldVal.str (encodeRgbText 255 0 12))] 255 0 12
    (by decide) (by decide) (by decide) (by decide) (by decide) (by decide) (by decide)

/-! ### Helper lemmas for the CRS token grammar -/

theorem map_eq_self_of {α : Type} {f : α → α} {l : List α} (h : ∀ c ∈ l, f c = c) :
    l.map f = l := by
  induction l with
  | nil => rfl
  | cons x t ih =>
    rw [List.map_cons, h x (List.mem_cons_self x t),
      ih (fun c hc => h c (List.mem_cons_of_mem x hc))]

theorem parse_facts_of_token {w : List Char} {a b : Char}
    (ha : isDigitChar a = true) (hb : isDigitChar b = true)
    (hw1 : ∀ c ∈ w, pyIsSpace c = false ∧ pyToUpper c = c ∧ c ≠ ' ')
    (hw2 : ∃ c0 w2, w = c0 :: w2 ∧ isDigitChar c0 = false) :
    pyStrip (w ++ [a, b]) = w ++ [a, b]
    ∧ ¬((w ++ [a, b]) ≠ [] ∧ (w ++ [a, b]).all isDigitChar = true)
    ∧ ((w ++ [a, b]).map pyToUpper).filter (fun c => c ≠ ' ') = w ++ [a, b] := by
  obtain ⟨hfa, hua, _, _, hsa⟩ := digit_facts ha
  obtain ⟨hfb, hub, _, _, hsb⟩ := digit_facts hb
  have hmem : ∀ c ∈ w ++ [a, b], pyIsSpace c = false ∧ pyToUpper c = c ∧ c ≠ ' ' := by
    intro c hc
    rcases List.mem_append.mp hc with hc | hc
    · exact hw1 c hc
    · rcases List.mem_cons.mp hc with rfl | hc
      · exact ⟨hfa, hua, hsa⟩
      · rcases List.mem_cons.mp hc with rfl | hc
        · exact ⟨hfb, hub, hsb⟩
        · exact absurd hc (List.not_mem_nil c)
  refine ⟨pyStrip_eq_self (fun c hc => (hmem c hc).1), ?_, ?_⟩
  · rintro ⟨_, hall⟩
    obtain ⟨c0, w2, rfl, hc0⟩ := hw2
    have hd := List.all_eq_true.mp hall c0 (by simp)
    rw [hc0] at hd
    exact Bool.false_ne_true hd
  · rw [map_eq_self_of (fun c hc => (hmem c hc).2.1)]
    exact List.filter_eq_self.mpr (fun c hc => decide_eq_true (hmem c hc).2.2)

theorem parse_choice_norm_eval (tok : List Char) (opts : List CrsEntry)
    (h1 : pyStrip tok = tok)
    (h2 : ¬(tok ≠ [] ∧ tok.all isDigitChar = true))
    (h3 : (tok.map pyToUpper).filter (fun c => c ≠ ' ') = tok) :
    parse_choice tok opts =
      match matchWgsUtm tok with
      | some zone => .ok ((wkt_utm_wgs84 zone).1 ++ " (WKT built)", (wkt_utm_wgs84 zone).2)
      | none =>
        match matchEurefUtm tok with
        | some zone =>
          .ok ((wkt_utm_euref89 zone).1 ++ " (WKT built)", (wkt_utm_euref89 zone).2)
        | none =>
          match matchNtm tok with
          | some zone =>
            if 5 ≤ zone ∧ zone ≤ 20 then
              .ok ((wkt_ntm zone).1 ++ " (WKT built)", (wkt_ntm zone).2)
            else .error "NTM zone must be 5-20 for mainland Norway."
          | none => .error "Unrecognized input." := by
  simp only [parse_choice, h1, h3]
  rw [if_neg h2]

theorem twoDigitZone_digits {a b : Char} (ha : isDigitChar a = true)
    (hb : isDigitChar b = true) :
    twoDigitZone [a, b] = some ((a.toNat - 48) * 10 + (b.toNat - 48)) := by
  show (if isDigitChar a && isDigitChar b
    then some ((a.toNat - 48) * 10 + (b.toNat - 48)) else none) = _
  rw [ha, hb]
  rfl

theorem parse_choice_eurefUtm (a b : Char) (ha : isDigitChar a = true)
    (hb : isDigitChar b = true) :
    parse_choice (['U', 'T', 'M'] ++ [a, b]) build_options
      = .ok ((wkt_utm_euref89 ((a.toNat - 48) * 10 + (b.toNat - 48))).1 ++ " (WKT built)",
             (wkt_utm_euref89 ((a.toNat - 48) * 10 + (b.toNat - 48))).2)
    ∧ parse_choice (['E', 'U', 'R', 'E', 'F', '8', '9', '/', 'U', 'T', 'M'] ++ [a, b])
        build_options
      = .ok ((wkt_utm_euref89 ((a.toNat - 48) * 10 + (b.toNat - 48))).1 ++ " (WKT built)",
             (wkt_utm_euref89 ((a.toNat - 48) * 10 + (b.toNat - 48))).2)
    ∧ parse_choice (['E', 'T', 'R', 'S', '8', '9', '/', 'U', 'T', 'M'] ++ [a, b]) build_options
      = .ok ((wkt_utm_euref89 ((a.toNat - 48) * 10 + (b.toNat - 48))).1 ++ " (WKT built)",
             (wkt_utm_euref89 ((a.toNat - 48) * 10 + (b.toNat - 48))).2) := by
  have htwo := twoDigitZone_digits ha hb
  refine ⟨?_, ?_, ?_⟩
  · have hf := parse_facts_of_token ha hb (w := ['U', 'T', 'M'])
      (by intro c hc; fin_cases hc <;> exact ⟨by decide, by decide, by decide⟩)
      ⟨'U', _, rfl, by decide⟩
    rw [parse_choice_norm_eval _ _ hf.1 hf.2.1 hf.2.2]
    rw [show matchWgsUtm (['U', 'T', 'M'] ++ [a, b]) = none from rfl]
    rw [show matchEurefUtm (['U', 'T', 'M'] ++ [a, b]) = twoDigitZone [a, b] from rfl, htwo]
  · have hf := parse_facts_of_token ha hb
      (w := ['E', 'U', 'R', 'E', 'F', '8', '9', '/', 'U', 'T', 'M'])
      (by intro c hc; fin_cases hc <;> exact ⟨by decide, by decide, by decide⟩)
      ⟨'E', _, rfl, by decide⟩
    rw [parse_choice_norm_eval _ _ hf.1 hf.2.1 hf.2.2]
    rw [show matchWgsUtm (['E', 'U', 'R', 'E', 'F', '8', '9', '/', 'U', 'T', 'M'] ++ [a, b])
      = none from rfl]
    rw [show matchEurefUtm (['E', 'U', 'R', 'E', 'F', '8', '9', '/', 'U', 'T', 'M'] ++ [a, b])
      = twoDigitZone [a, b] from rfl, htwo]
  · have hf := parse_facts_of_token ha hb
      (w := ['E', 'T', 'R', 'S', '8', '9', '/', 'U', 'T', 'M'])
      (by intro c hc; fin_cases hc <;> exact ⟨by decide, by decide, by decide⟩)
      ⟨'E', _, rfl, by decide⟩
    rw [parse_choice_norm_eval _ _ hf.1 hf.2.1 hf.2.2]
    rw [show matchWgsUtm (['E', 'T', 'R', 'S', '8', '9', '/', 'U', 'T', 'M'] ++ [a, b])
      = none from rfl]
    rw [show matchEurefUtm (['E', 'T', 'R', 'S', '8', '9', '/', 'U', 'T', 'M'] ++ [a, b])
      = twoDigitZone [a, b] from rfl, htwo]

theorem parse_choice_wgsUtm (a b : Char) (ha : isDigitChar a = true)
    (hb : isDigitChar b = true) :
    parse_choice (['W', 'G', 'S', '8', '4', '/', 'U', 'T', 'M'] ++ [a, b]) build_options
      = .ok ((wkt_utm_wgs84 ((a.toNat - 48) * 10 + (b.toNat - 48))).1 ++ " (WKT built)",
             (wkt_utm_wgs84 ((a.toNat - 48) * 10 + (b.toNat - 48))).2)
    ∧ parse_choice (['W', 'G', 'S', '/', 'U', 'T', 'M'] ++ [a, b]) build_options
      = .ok ((wkt_utm_wgs84 ((a.toNat - 48) * 10 + (b.toNat - 48))).1 ++ " (WKT built)",
             (wkt_utm_wgs84 ((a.toNat - 48) * 10 + (b.toNat - 48))).2) := by
  have htwo := twoDigitZone_digits ha hb
  refine ⟨?_, ?_⟩
  · have hf := parse_facts_of_token ha hb (w := ['W', 'G', 'S', '8', '4', '/', 'U', 'T', 'M'])
      (by intro c hc; fin_cases hc <;> exact ⟨by decide, by decide, by decide⟩)
      ⟨'W', _, rfl, by decide⟩
    rw [parse_choice_norm_eval _ _ hf.1 hf.2.1 hf.2.2]
    rw [show matchWgsUtm (['W', 'G', 'S', '8', '4', '/', 'U', 'T', 'M'] ++ [a, b])
      = twoDigitZone [a, b] from rfl, htwo]
  · have hf := parse_facts_of_token ha hb (w := ['W', 'G', 'S', '/', 'U', 'T', 'M'])
      (by intro c hc; fin_cases hc <;> exact ⟨by decide, by decide, by decide⟩)
      ⟨'W', _, rfl, by decide⟩
    rw [parse_choice_norm_eval _ _ hf.1 hf.2.1 hf.2.2]
    rw [show matchWgsUtm (['W', 'G', 'S', '/', 'U', 'T', 'M'] ++ [a, b])
      = twoDigitZone [a, b] from rfl, htwo]

/-! ### Claim theorems: CRS token disambiguation (C3) and WGS zone validation (C4) -/

/-- Claim C3: resolution is order-sensitive — a bare `UTM` token with any
two-digit zone (optionally prefixed `EUREF89/` or `ETRS89/`) resolves to the
EUREF89 entry for that zone and never the WGS84 one, while a `WGS84/` or
`WGS/` prefixed token resolves to the WGS84 entry for that zone. -/
theorem c3_crs_token_disambiguation (a b : Char) (ha : isDigitChar a = true)
    (hb : isDigitChar b = true) :
    parse_choice (['U', 'T', 'M'] ++ [a, b]) build_options
      = .ok ((wkt_utm_euref89 ((a.toNat - 48) * 10 + (b.toNat - 48))).1 ++ " (WKT built)",
             (wkt_utm_euref89 ((a.toNat - 48) * 10 + (b.toNat - 48))).2)
    ∧ parse_choice (['E', 'U', 'R', 'E', 'F', '8', '9', '/', 'U', 'T', 'M'] ++ [a, b])
        build_options
      = .ok ((wkt_utm_euref89 ((a.toNat - 48) * 10 + (b.toNat - 48))).1 ++ " (WKT built)",
             (wkt_utm_euref89 ((a.toNat - 48) * 10 + (b.toNat - 48))).2)
    ∧ parse_choice (['E', 'T', 'R', 'S', '8', '9', '/', 'U', 'T', 'M'] ++ [a, b]) build_options
      = .ok ((wkt_utm_euref89 ((a.toNat - 48) * 10 + (b.toNat - 48))).1 ++ " (WKT built)",
             (wkt_utm_euref89 ((a.toNat - 48) * 10 + (b.toNat - 48))).2)
    ∧ parse_choice (['W', 'G', 'S', '8', '4', '/', 'U', 'T', 'M'] ++ [a, b]) build_options
      = .ok ((wkt_utm_wgs84 ((a.toNat - 48) * 10 + (b.toNat - 48))).1 ++ " (WKT built)",
             (wkt_utm_wgs84 ((a.toNat - 48) * 10 + (b.toNat - 48))).2)
    ∧ parse_choice (['W', 'G', 'S', '/', 'U', 'T', 'M'] ++ [a, b]) build_options
      = .ok ((wkt_utm_wgs84 ((a.toNat - 48) * 10 + (b.toNat - 48))).1 ++ " (WKT built)",
             (wkt_utm_wgs84 ((a.toNat - 48) * 10 + (b.toNat - 48))).2)
    ∧ ((wkt_utm_euref89 ((a.toNat - 48) * 10 + (b.toNat - 48))).1 ++ " (WKT built)",
       (wkt_utm_euref89 ((a.toNat - 48) * 10 + (b.toNat - 48))).2)
      ≠ ((wkt_utm_wgs84 ((a.toNat - 48) * 10 + (b.toNat - 48))).1 ++ " (WKT built)",
         (wkt_utm_wgs84 ((a.toNat - 48) * 10 + (b.toNat - 48))).2) := by
  obtain ⟨he1, he2, he3⟩ := parse_choice_eurefUtm a b ha hb
  obtain ⟨hw1, hw2⟩ := parse_choice_wgsUtm a b ha hb
  refine ⟨he1, he2, he3, hw1, hw2, ?_⟩
  intro h
  have hlab := congrArg (fun p => List.head? (String.data p.1)) h
  simp only at hlab
  rw [show List.head? (String.data
      ((wkt_utm_euref89 ((a.toNat - 48) * 10 + (b.toNat - 48))).1 ++ " (WKT built)"))
    = some 'E' from rfl] at hlab
  rw [show List.head? (String.data
      ((wkt_utm_wgs84 ((a.toNat - 48) * 10 + (b.toNat - 48))).1 ++ " (WKT built)"))
    = some 'W' from rfl] at hlab
  exact absurd hlab (by decide)

/-- Witness for C3 at the tokens `UTM33` and `WGS84/UTM33`. -/
theorem c3_crs_token_disambiguation_witness :
    isDigitChar '3' = true
    ∧ parse_choice (['U', 'T', 'M'] ++ ['3', '3']) build_options
      = .ok ((wkt_utm_euref89 33).1 ++ " (WKT built)", (wkt_utm_euref89 33).2)
    ∧ parse_choice (['W', 'G', 'S', '8', '4', '/', 'U', 'T', 'M'] ++ ['3', '3']) build_options
      = .ok ((wkt_utm_wgs84 33).1 ++ " (WKT built)", (wkt_utm_wgs84 33).2) := by
  refine ⟨by decide, ?_, ?_⟩
  · exact (c3_crs_token_disambiguation '3' '3' (by decide) (by decide)).1
  · exact (c3_crs_token_disambiguation '3' '3' (by decide) (by decide)).2.2.2.1

/-- Counterexample to claim C4: the token `WGS84/UTM99` has a zone outside
{32,33,35}, yet resolution succeeds and returns the WGS84 entry built for
zone 99 instead of failing with an input error. -/
theorem c4_counterexample :
    parse_choice "WGS84/UTM99".data build_options
      = .ok ((wkt_utm_wgs84 99).1 ++ " (WKT built)", (wkt_utm_wgs84 99).2)
    ∧ (parse_choice "WGS84/UTM99".data build_options).isOk = true := by
  refine ⟨rfl, rfl⟩

/-- Amended claim C4: for every token matching the WGS84 UTM pattern (WGS or
WGS84 prefix, slash, UTM, two digits), resolution succeeds for ANY two-digit
zone — the zone is not validated against {32,33,35}; the WKT is built
directly from the zone number rather than matched against the catalog. -/
theorem c4_wgs_zone_unvalidated (a b : Char) (ha : isDigitChar a = true)
    (hb : isDigitChar b = true) :
    parse_choice (['W', 'G', 'S', '8', '4', '/', 'U', 'T', 'M'] ++ [a, b]) build_options
      = .ok ((wkt_utm_wgs84 ((a.toNat - 48) * 10 + (b.toNat - 48))).1 ++ " (WKT built)",
             (wkt_utm_wgs84 ((a.toNat - 48) * 10 + (b.toNat - 48))).2)
    ∧ parse_choice (['W', 'G', 'S', '/', 'U', 'T', 'M'] ++ [a, b]) build_options
      = .ok ((wkt_utm_wgs84 ((a.toNat - 48) * 10 + (b.toNat - 48))).1 ++ " (WKT built)",
             (wkt_utm_wgs84 ((a.toNat - 48) * 10 + (b.toNat - 48))).2)
    ∧ (parse_choice (['W', 'G', 'S', '8', '4', '/', 'U', 'T', 'M'] ++ [a, b])
        build_options).isOk = true := by
  obtain ⟨hw1, hw2⟩ := parse_choice_wgsUtm a b ha hb
  refine ⟨hw1, hw2, ?_⟩
  rw [hw1]
  rfl

/-- Witness for C4 at the out-of-catalog zone 99. -/
theorem c4_wgs_zone_unvalidated_witness :
    isDigitChar '9' = true
    ∧ parse_choice (['W', 'G', 'S', '/', 'U', 'T', 'M'] ++ ['9', '9']) build_options
      = .ok ((wkt_utm_wgs84 99).1 ++ " (WKT built)", (wkt_utm_wgs84 99).2) := by
  refine ⟨by decide, ?_⟩
  exact (c4_wgs_zone_unvalidated '9' '9' (by decide) (by decide)).2.1

end ShpConv
